import Mathlib

/-!
Shallow embedding of the `uid64` snowflake-style id generator (Go package
`uid64`, file `uid64.go`) and verification of its specification claims.

Modelling conventions:
* Go `int64` values are modelled as `Int`; where Go twos-complement
  overflow can matter, the 64-bit bit pattern is taken explicitly with
  `% 2 ^ 64` (`pat64` / `int64ofPat`).
* The wall clock (`timestamp()`) is an oracle `clock : Nat → Int`, a stream
  of successive samples; every call to `timestamp()` consumes the next
  index.  `NextID` takes the current cursor `i` and returns the new cursor.
* `net.Interfaces()` and `rand.Int()` are oracles: `NetResult` is either a
  failure of `net.Interfaces()` or the list of bytes of the concatenated
  interface hardware addresses, and `rand : Nat` is the value `rand.Int()`
  would return (a non-negative value below `2 ^ 63`).
* The spin loop `blockWaitToNextMillisecond` is given explicit fuel, so
  `NextID` returns `none` exactly when the loop would still be spinning
  after `fuel` further clock samples.
-/

namespace uid64

/-- Bit widths, as in the Go constant block. -/
def unusedBits : Nat := 1

def epochBits : Nat := 41

def nodeIDBits : Nat := 10

def sequenceBits : Nat := 12

/-- maxNodeID = 2^10 - 1 = 1023 (`math.Pow(2, nodeIDBits) - 1`). -/
def maxNodeID : Nat := 2 ^ nodeIDBits - 1

/-- maxSequence = 2^12 - 1 = 4095 (`math.Pow(2, sequenceBits) - 1`). -/
def maxSequence : Nat := 2 ^ sequenceBits - 1

/-- Custom epoch (2015-01-01T00:00:00Z in Unix milliseconds). -/
def customEpoch : Int := 1420070400000

/-- Errors of the package: `ErrInvalidState`, `ErrOutOfBoundNodeID`, and the
generic error propagated from `net.Interfaces()`. -/
inductive GenError : Type
  | InvalidState
  | OutOfBoundNodeID
  | NetworkError
deriving DecidableEq, Repr

/-- The mutable state of a `Generator` (the mutex is modelled away: every
call is an atomic state transition).  In Go, `nodeID` is an `int` that is
only ever assigned non-negative values, `lastTimestamp` and `sequence` are
`int64`; `sequence` is only ever assigned values in `[0, 4095]`. -/
structure Generator : Type where
  nodeID : Nat
  lastTimestamp : Int
  sequence : Nat
deriving DecidableEq, Repr

deriving instance DecidableEq for Except

/-- `New()`: zero value for `nodeID` and `sequence`, `lastTimestamp = -1`. -/
def New : Generator :=
  { nodeID := 0, lastTimestamp := -1, sequence := 0 }

/-- `NewWithNodeID(nodeID int)`: validates `0 <= nodeID <= maxNodeID`. -/
def NewWithNodeID (nodeID : Int) : Except GenError Generator :=
  if nodeID < 0 ∨ nodeID > (maxNodeID : Int) then
    Except.error GenError.OutOfBoundNodeID
  else
    Except.ok { nodeID := nodeID.toNat, lastTimestamp := -1, sequence := 0 }

/-- The result of `net.Interfaces()` together with the hardware-address
extraction: either the call failed, or it yields the bytes of all
interface MAC addresses, concatenated in order. -/
inductive NetResult : Type
  | fail
  | addrs (macBytes : List (Fin 256))
deriving DecidableEq, Repr

/-- ASCII code of the uppercase hexadecimal digit for `n < 16`
(`fmt.Sprintf("%02X", b)` formats with uppercase digits). -/
def hexDigit (n : Nat) : Nat :=
  if n < 10 then 48 + n else 55 + n

/-- The two bytes of `fmt.Sprintf("%02X", b)` for a byte `b`. -/
def hexBytes (b : Fin 256) : List Nat :=
  [hexDigit (b.val / 16), hexDigit (b.val % 16)]

/-- FNV-1a 32-bit offset basis. -/
def fnvOffsetBasis : Nat := 2166136261

/-- FNV-1a 32-bit prime. -/
def fnvPrime : Nat := 16777619

/-- One step of FNV-1a 32-bit: XOR in the byte, multiply by the prime
modulo `2 ^ 32`. -/
def fnv32aStep (h b : Nat) : Nat :=
  ((h ^^^ b) * fnvPrime) % 2 ^ 32

/-- `fnv.New32a(); h.Write(bytes); h.Sum32()`. -/
def fnv32a (bytes : List Nat) : Nat :=
  bytes.foldl fnv32aStep fnvOffsetBasis

/-- `createNodeID()`: on `net.Interfaces()` failure, propagate the error;
with an empty concatenated hardware-address string, return `rand.Int()`
(note: NOT masked in the source); otherwise hash the uppercase-hex string
of the bytes with FNV-1a 32 and mask with `maxNodeID`. -/
def createNodeID : NetResult → Nat → Except GenError Nat
  | NetResult.fail, _ => Except.error GenError.NetworkError
  | NetResult.addrs bs, rand =>
    if bs.isEmpty then Except.ok rand
    else Except.ok (fnv32a ((bs.map hexBytes).flatten) &&& maxNodeID)

/-- The 64-bit twos-complement bit pattern of an `Int`, as a `Nat` below
`2 ^ 64`. -/
def pat64 (n : Int) : Nat :=
  (n % (2 ^ 64 : Int)).toNat

/-- The `Int` value of a 64-bit twos-complement bit pattern. -/
def int64ofPat (p : Nat) : Int :=
  if p < 2 ^ 63 then (p : Int) else (p : Int) - 2 ^ 64

/-- The id composition of `NextID` (lines
`id := currentTimestamp << (nodeIDBits + sequenceBits);
id |= int64(g.nodeID) << sequenceBits; id |= g.sequence`), with Go `int64`
shift/or semantics made explicit on the 64-bit bit pattern. -/
def composeID (ts : Int) (node seq : Nat) : Int :=
  int64ofPat
    ((pat64 ts <<< (nodeIDBits + sequenceBits) ||| node <<< sequenceBits ||| seq)
      % 2 ^ 64)

/-- Step 1 of `NextID`: `if g.nodeID == 0 { ... createNodeID ... }`. -/
def resolveNodeID (g : Generator) (net : NetResult) (rand : Nat) :
    Except GenError Generator :=
  if g.nodeID = 0 then
    match createNodeID net rand with
    | Except.error e => Except.error e
    | Except.ok nid => Except.ok { g with nodeID := nid }
  else Except.ok g

/-- `blockWaitToNextMillisecond`: keep sampling the clock while the sample
equals `last`; return the first differing sample together with the next
cursor.  `none` when `fuel` samples were not enough. -/
def blockWaitToNextMillisecond (last : Int) (clock : Nat → Int) :
    Nat → Nat → Option (Int × Nat)
  | 0, _ => none
  | fuel + 1, i =>
    if clock i = last then blockWaitToNextMillisecond last clock fuel (i + 1)
    else some (clock i, i + 1)

/-- `NextID()`: returns `((id, err), post-state, next clock cursor)`;
Go returns the pair `(0, err)` on the error paths.  `none` models the
spin-wait not terminating within `fuel`. -/
def NextID (g : Generator) (net : NetResult) (rand : Nat) (clock : Nat → Int)
    (i fuel : Nat) : Option ((Int × Option GenError) × Generator × Nat) :=
  match resolveNodeID g net rand with
  | Except.error e => some ((0, some e), g, i)
  | Except.ok g1 =>
    let currentTimestamp := clock i
    if currentTimestamp < g1.lastTimestamp then
      some ((0, some GenError.InvalidState), g1, i + 1)
    else if currentTimestamp = g1.lastTimestamp then
      let seq := (g1.sequence + 1) &&& maxSequence
      if seq = 0 then
        match blockWaitToNextMillisecond g1.lastTimestamp clock fuel (i + 1) with
        | none => none
        | some (ts, j) =>
          some ((composeID ts g1.nodeID seq, none),
            { g1 with lastTimestamp := ts, sequence := seq }, j)
      else
        some ((composeID currentTimestamp g1.nodeID seq, none),
          { g1 with lastTimestamp := currentTimestamp, sequence := seq }, i + 1)
    else
      some ((composeID currentTimestamp g1.nodeID 0, none),
        { g1 with lastTimestamp := currentTimestamp, sequence := 0 }, i + 1)

/-- Modelled from the spec: the timestamp field of an id, `id >> 22`
(Go arithmetic shift on `int64` is floor division by `2 ^ 22`).  The
decomposition operator exists only in the testable properties of the spec, not
in the source. -/
def timestampField (id : Int) : Int :=
  Int.fdiv id (2 ^ (nodeIDBits + sequenceBits))

/-- Modelled from the spec: the node-id field of an id,
`(id >> 12) & 1023`, computed on the 64-bit bit pattern. -/
def nodeIDField (id : Int) : Nat :=
  (pat64 id >>> sequenceBits) &&& maxNodeID

/-- Modelled from the spec: the sequence field of an id, `id & 4095`,
computed on the 64-bit bit pattern. -/
def sequenceField (id : Int) : Nat :=
  pat64 id &&& maxSequence

/-- A concrete non-decreasing clock stream: two samples of millisecond 0,
then millisecond 1 forever. -/
def cexClock : Nat → Int :=
  fun n => if n ≤ 1 then 0 else 1

end uid64

namespace uid64

/-! ### Arithmetic and bit-pattern helper lemmas -/

lemma maxSequence_eq : maxSequence = 2 ^ 12 - 1 := rfl

lemma maxNodeID_eq : maxNodeID = 2 ^ 10 - 1 := rfl

lemma pat64_lt (n : Int) : pat64 n < 2 ^ 64 := by
  unfold pat64
  omega

lemma pat64_int64ofPat (P : Nat) (h : P < 2 ^ 64) : pat64 (int64ofPat P) = P := by
  unfold pat64 int64ofPat
  split <;> omega

lemma testBit_shiftLeft_low {a k i : Nat} (h : i < k) : (a <<< k).testBit i = false := by
  simp [Nat.testBit_shiftLeft, Nat.not_le.mpr h]

lemma testBit_high_false {x k i : Nat} (hx : x < 2 ^ k) (h : k ≤ i) : x.testBit i = false :=
  Nat.testBit_lt_two_pow (lt_of_lt_of_le hx (Nat.pow_le_pow_right (by norm_num) h))

lemma shiftLeft_or_eq_add {a b k : Nat} (hb : b < 2 ^ k) :
    a <<< k ||| b = 2 ^ k * a + b := by
  apply Nat.eq_of_testBit_eq
  intro i
  rw [Nat.testBit_mul_pow_two_add a hb i]
  rcases lt_or_ge i k with hi | hi
  · simp [Nat.testBit_or, testBit_shiftLeft_low hi, hi]
  · simp [Nat.testBit_or, Nat.testBit_shiftLeft, Nat.le.intro, hi,
      testBit_high_false hb hi, Nat.not_lt.mpr hi]

lemma or3_eq_add {a n s : Nat} (hn : n < 2 ^ 10) (hs : s < 2 ^ 12) :
    a <<< 22 ||| n <<< 12 ||| s = 2 ^ 22 * a + (2 ^ 12 * n + s) := by
  have hns : 2 ^ 12 * n + s < 2 ^ 22 := by omega
  rw [Nat.lor_assoc, shiftLeft_or_eq_add hs, shiftLeft_or_eq_add hns]

lemma pat64_composeID (ts : Int) (n s : Nat) :
    pat64 (composeID ts n s) = (pat64 ts <<< 22 ||| n <<< 12 ||| s) % 2 ^ 64 := by
  unfold composeID
  rw [show nodeIDBits + sequenceBits = 22 from rfl, show sequenceBits = 12 from rfl]
  exact pat64_int64ofPat _ (Nat.mod_lt _ (by norm_num))

end uid64

namespace uid64

lemma lor_mod_two_pow (x y k : Nat) : (x ||| y) % 2 ^ k = x % 2 ^ k ||| y % 2 ^ k := by
  apply Nat.eq_of_testBit_eq
  intro i
  simp [Nat.testBit_mod_two_pow, Nat.testBit_or, Bool.and_or_distrib_left]

lemma sequenceField_composeID (ts : Int) (n s : Nat) (hs : s < 2 ^ 12) :
    sequenceField (composeID ts n s) = s := by
  unfold sequenceField
  rw [pat64_composeID, maxSequence_eq, Nat.and_pow_two_sub_one_eq_mod,
    Nat.mod_mod_of_dvd _ (by norm_num : (2 : Nat) ^ 12 ∣ 2 ^ 64),
    lor_mod_two_pow, lor_mod_two_pow, Nat.shiftLeft_eq, Nat.shiftLeft_eq,
    show pat64 ts * 2 ^ 22 % 2 ^ 12 = 0 from by omega,
    show n * 2 ^ 12 % 2 ^ 12 = 0 from by omega,
    Nat.mod_eq_of_lt hs]
  simp

lemma nodeIDField_composeID (ts : Int) (n s : Nat) (hn : n < 2 ^ 10) (hs : s < 2 ^ 12) :
    nodeIDField (composeID ts n s) = n := by
  unfold nodeIDField
  rw [pat64_composeID, or3_eq_add hn hs, show sequenceBits = 12 from rfl,
    Nat.shiftRight_eq_div_pow, maxNodeID_eq, Nat.and_pow_two_sub_one_eq_mod]
  omega

lemma composeID_spec (ts : Int) (n s : Nat) (h0 : 0 ≤ ts) (h1 : ts < 2 ^ 41)
    (hn : n < 2 ^ 10) (hs : s < 2 ^ 12) :
    composeID ts n s = ((2 ^ 22 * ts.toNat + (2 ^ 12 * n + s) : Nat) : Int) := by
  unfold composeID int64ofPat
  have hpat : pat64 ts = ts.toNat := by unfold pat64; omega
  rw [show nodeIDBits + sequenceBits = 22 from rfl, show sequenceBits = 12 from rfl,
    hpat, or3_eq_add hn hs]
  have htn : ts.toNat < 2 ^ 41 := by omega
  have hlt : 2 ^ 22 * ts.toNat + (2 ^ 12 * n + s) < 2 ^ 63 := by omega
  rw [Nat.mod_eq_of_lt (lt_trans hlt (by norm_num)), if_pos hlt]

lemma composeID_nonneg (ts : Int) (n s : Nat) (h0 : 0 ≤ ts) (h1 : ts < 2 ^ 41)
    (hn : n < 2 ^ 10) (hs : s < 2 ^ 12) : 0 ≤ composeID ts n s := by
  rw [composeID_spec ts n s h0 h1 hn hs]
  exact Int.natCast_nonneg _

lemma timestampField_composeID (ts : Int) (n s : Nat) (h0 : 0 ≤ ts) (h1 : ts < 2 ^ 41)
    (hn : n < 2 ^ 10) (hs : s < 2 ^ 12) :
    timestampField (composeID ts n s) = ts := by
  rw [composeID_spec ts n s h0 h1 hn hs]
  unfold timestampField
  rw [show nodeIDBits + sequenceBits = 22 from rfl,
    Int.fdiv_eq_ediv _ (by positivity),
    show ((2 : Int) ^ 22) = ((2 ^ 22 : Nat) : Int) from by norm_cast,
    ← Int.ofNat_ediv,
    show (2 ^ 22 * ts.toNat + (2 ^ 12 * n + s)) / 2 ^ 22 = ts.toNat from by omega]
  exact Int.toNat_of_nonneg h0

end uid64

namespace uid64

/-! ### Structural lemmas about the state machine -/

lemma resolveNodeID_preserves {g : Generator} {net : NetResult} {rand : Nat}
    {g1 : Generator} (h : resolveNodeID g net rand = Except.ok g1) :
    g1.lastTimestamp = g.lastTimestamp ∧ g1.sequence = g.sequence := by
  unfold resolveNodeID at h
  split at h
  · cases hc : createNodeID net rand with
    | error e => rw [hc] at h; cases h
    | ok nid => rw [hc] at h; cases h; exact ⟨rfl, rfl⟩
  · cases h; exact ⟨rfl, rfl⟩

lemma resolveNodeID_of_ne {g : Generator} (net : NetResult) (rand : Nat)
    (h : g.nodeID ≠ 0) : resolveNodeID g net rand = Except.ok g := by
  unfold resolveNodeID
  rw [if_neg h]

lemma blockWait_spec {last : Int} {clock : Nat → Int} :
    ∀ (fuel i : Nat) {ts : Int} {j : Nat},
      blockWaitToNextMillisecond last clock fuel i = some (ts, j) →
      ∃ k, i ≤ k ∧ j = k + 1 ∧ clock k = ts ∧ ts ≠ last := by
  intro fuel
  induction fuel with
  | zero => intro i ts j h; cases h
  | succ fuel ih =>
    intro i ts j h
    unfold blockWaitToNextMillisecond at h
    split at h
    · obtain ⟨k, hk1, hk2, hk3, hk4⟩ := ih (i + 1) h
      exact ⟨k, by omega, hk2, hk3, hk4⟩
    · rename_i hne
      cases h
      exact ⟨i, le_refl i, rfl, rfl, hne⟩

lemma nextID_ok_inv {g : Generator} {net : NetResult} {rand : Nat}
    {clock : Nat → Int} {i fuel : Nat} {id : Int} {g' : Generator} {j : Nat}
    (h : NextID g net rand clock i fuel = some ((id, none), g', j)) :
    ∃ g1, resolveNodeID g net rand = Except.ok g1 ∧
      g'.nodeID = g1.nodeID ∧ g'.sequence ≤ maxSequence ∧
      id = composeID g'.lastTimestamp g'.nodeID g'.sequence := by
  unfold NextID at h
  cases hres : resolveNodeID g net rand with
  | error e => rw [hres] at h; simp at h
  | ok g1 =>
    rw [hres] at h
    dsimp only at h
    refine ⟨g1, rfl, ?_⟩
    by_cases h1 : clock i < g1.lastTimestamp
    · rw [if_pos h1] at h; simp at h
    · rw [if_neg h1] at h
      by_cases h2 : clock i = g1.lastTimestamp
      · rw [if_pos h2] at h
        by_cases h3 : (g1.sequence + 1) &&& maxSequence = 0
        · rw [if_pos h3] at h
          cases hbw : blockWaitToNextMillisecond g1.lastTimestamp clock fuel (i + 1) with
          | none => rw [hbw] at h; cases h
          | some p =>
            rw [hbw] at h
            obtain ⟨ts, k⟩ := p
            simp only [Option.some.injEq, Prod.mk.injEq, and_true, true_and,
              eq_self_iff_true] at h
            obtain ⟨hid, hg', hj⟩ := h
            subst hg'
            exact ⟨rfl, Nat.and_le_right, hid.symm⟩
        · rw [if_neg h3] at h
          simp only [Option.some.injEq, Prod.mk.injEq, and_true, true_and,
            eq_self_iff_true] at h
          obtain ⟨hid, hg', hj⟩ := h
          subst hg'
          exact ⟨rfl, Nat.and_le_right, hid.symm⟩
      · rw [if_neg h2] at h
        simp only [Option.some.injEq, Prod.mk.injEq, and_true, true_and,
          eq_self_iff_true] at h
        obtain ⟨hid, hg', hj⟩ := h
        subst hg'
        exact ⟨rfl, Nat.zero_le _, hid.symm⟩

end uid64

namespace uid64

/-! ### Claim theorems -/

/-- C9: `NewWithNodeID` fails with `OutOfBoundNodeID` exactly when the
requested node id lies outside `[0, 1023]`, and otherwise returns a
generator holding that node id, with `lastTimestamp = -1` and
`sequence = 0`. -/
theorem newWithNodeID_bounds :
    ∀ n : Int,
      (NewWithNodeID n = Except.error GenError.OutOfBoundNodeID ↔
        (n < 0 ∨ (maxNodeID : Int) < n)) ∧
      (0 ≤ n → n ≤ (maxNodeID : Int) →
        NewWithNodeID n =
          Except.ok { nodeID := n.toNat, lastTimestamp := -1, sequence := 0 }) := by
  intro n
  unfold NewWithNodeID
  by_cases h : n < 0 ∨ (maxNodeID : Int) < n
  · rw [if_pos h]
    exact ⟨⟨fun _ => h, fun _ => rfl⟩,
      fun h0 h1 => absurd h (by push_neg; exact ⟨h0, h1⟩)⟩
  · rw [if_neg h]
    exact ⟨⟨fun hc => Except.noConfusion hc, fun hc => absurd hc h⟩,
      fun _ _ => rfl⟩

/-- Witness for C9 at node ids 1024 (fails), 1023 and 0 (succeed). -/
theorem newWithNodeID_bounds_witness :
    NewWithNodeID 1024 = Except.error GenError.OutOfBoundNodeID ∧
    NewWithNodeID 1023 =
      Except.ok { nodeID := (1023 : Int).toNat, lastTimestamp := -1, sequence := 0 } ∧
    NewWithNodeID 0 =
      Except.ok { nodeID := (0 : Int).toNat, lastTimestamp := -1, sequence := 0 } :=
  ⟨(newWithNodeID_bounds 1024).1.mpr (by decide),
    (newWithNodeID_bounds 1023).2 (by decide) (by decide),
    (newWithNodeID_bounds 0).2 (by decide) (by decide)⟩

/-- C10: when the node id is unresolved and the node-id provider fails,
`NextID` returns the id value 0 together with that error, leaves the whole
generator state unchanged, and consumes no clock sample. -/
theorem nextID_provider_error_preserves_state :
    ∀ (g : Generator) (net : NetResult) (rand : Nat) (clock : Nat → Int)
      (i fuel : Nat) (e : GenError),
      g.nodeID = 0 → createNodeID net rand = Except.error e →
      NextID g net rand clock i fuel = some ((0, some e), g, i) := by
  intro g net rand clock i fuel e h0 hc
  unfold NextID resolveNodeID
  rw [if_pos h0, hc]

/-- Witness for C10: a fresh generator whose provider fails. -/
theorem nextID_provider_error_witness :
    NextID New NetResult.fail 0 (fun _ => (0 : Int)) 0 0 =
      some ((0, some GenError.NetworkError), New, 0) :=
  nextID_provider_error_preserves_state New NetResult.fail 0 (fun _ => (0 : Int))
    0 0 GenError.NetworkError rfl rfl

/-- C2: if node-id resolution succeeds (yielding state `g1`) and the sampled
timestamp is strictly below `lastTimestamp`, `NextID` fails with
`InvalidState`, returns the id value 0, and `lastTimestamp` and `sequence`
are exactly as before the call. -/
theorem nextID_clock_regression_invalidState :
    ∀ (g g1 : Generator) (net : NetResult) (rand : Nat) (clock : Nat → Int)
      (i fuel : Nat),
      resolveNodeID g net rand = Except.ok g1 →
      clock i < g1.lastTimestamp →
      NextID g net rand clock i fuel =
        some ((0, some GenError.InvalidState), g1, i + 1) ∧
      g1.lastTimestamp = g.lastTimestamp ∧ g1.sequence = g.sequence := by
  intro g g1 net rand clock i fuel hres hlt
  refine ⟨?_, resolveNodeID_preserves hres⟩
  unfold NextID
  rw [hres]
  dsimp only
  rw [if_pos hlt]

/-- Witness for C2: a generator at `lastTimestamp = 5` observing sample 4. -/
theorem nextID_clock_regression_witness :
    NextID ⟨3, 5, 2⟩ NetResult.fail 0 (fun _ => (4 : Int)) 0 0 =
      some ((0, some GenError.InvalidState), ⟨3, 5, 2⟩, 1) ∧
    (⟨3, 5, 2⟩ : Generator).lastTimestamp = (⟨3, 5, 2⟩ : Generator).lastTimestamp ∧
    (⟨3, 5, 2⟩ : Generator).sequence = (⟨3, 5, 2⟩ : Generator).sequence :=
  nextID_clock_regression_invalidState ⟨3, 5, 2⟩ ⟨3, 5, 2⟩ NetResult.fail 0
    (fun _ => (4 : Int)) 0 0 (by decide) (by decide)

/-- C3 counterexample: a generator explicitly constructed with node id 0 is
indistinguishable from `New` (node id 0 is the "unresolved" sentinel), so
its first `NextID` call DOES invoke the node-id provider: with one hardware
address byte `0x01` the provider hashes "01" to 186, and the id the call
returns carries node-id field 186, not the configured 0. -/
theorem newWithNodeID_zero_not_bypassed :
    NewWithNodeID 0 = Except.ok New ∧
    createNodeID (NetResult.addrs [(1 : Fin 256)]) 0 = Except.ok 186 ∧
    NextID New (NetResult.addrs [(1 : Fin 256)]) 0 (fun _ => (0 : Int)) 0 1 =
      some ((761856, none), ⟨186, 0, 0⟩, 1) ∧
    nodeIDField 761856 = 186 ∧ (186 : Nat) ≠ 0 := by
  decide

/-- C4 (code bug): with no hardware addresses the provider returns
`rand.Int()` unmasked; 1024 is a possible `rand.Int()` value and it exceeds
`maxNodeID`, contradicting the specified 10-bit fallback. -/
theorem createNodeID_fallback_unmasked :
    createNodeID (NetResult.addrs []) 1024 = Except.ok 1024 ∧
    maxNodeID < 1024 ∧ 1024 < 2 ^ 63 := by
  decide

/-- C5 (code bug): lazy resolution through the random fallback can store a
node id above `maxNodeID` in the generator state, breaking the
`0 <= nodeID <= 1023` invariant. -/
theorem nextID_nodeID_bound_violation :
    NextID New (NetResult.addrs []) 1024 (fun _ => (0 : Int)) 0 1 =
      some ((4194304, none), ⟨1024, 0, 0⟩, 1) ∧
    ¬ (1024 ≤ maxNodeID) ∧ 1024 < 2 ^ 63 := by
  decide

/-- C1 (code bug): under the non-decreasing clock `cexClock` a lazily
resolved generator whose provider fell back to `rand.Int() = 1024` yields
ids 4194304, 4194305, 4194304: the third id is not greater than the second
and collides with the first, refuting monotonicity and uniqueness. -/
theorem nextID_monotonicity_violation :
    (∀ n : Nat, cexClock n ≤ cexClock (n + 1)) ∧
    NextID New (NetResult.addrs []) 1024 cexClock 0 5 =
      some ((4194304, none), ⟨1024, 0, 0⟩, 1) ∧
    NextID ⟨1024, 0, 0⟩ (NetResult.addrs []) 1024 cexClock 1 5 =
      some ((4194305, none), ⟨1024, 0, 1⟩, 2) ∧
    NextID ⟨1024, 0, 1⟩ (NetResult.addrs []) 1024 cexClock 2 5 =
      some ((4194304, none), ⟨1024, 1, 0⟩, 3) ∧
    ¬ ((4194305 : Int) < 4194304) ∧ (4194304 : Int) = 4194304 := by
  refine ⟨?_, by decide, by decide, by decide, by decide, by decide⟩
  intro n
  unfold cexClock
  by_cases h : n ≤ 1 <;> by_cases h2 : n + 1 ≤ 1 <;>
    simp only [h, h2, if_true, if_false, ite_true, ite_false] <;> omega

end uid64

namespace uid64

/-- C7: every id returned by a successful `NextID` call equals
`(timestamp << (nodeIDBits + sequenceBits)) | (nodeID << sequenceBits) | sequence`
evaluated at the state values recorded at the moment of issuance (which are
exactly the post-state fields `lastTimestamp`, `nodeID` and `sequence`). -/
theorem nextID_id_composition :
    ∀ (g : Generator) (net : NetResult) (rand : Nat) (clock : Nat → Int)
      (i fuel : Nat) (id : Int) (g' : Generator) (j : Nat),
      NextID g net rand clock i fuel = some ((id, none), g', j) →
      id = composeID g'.lastTimestamp g'.nodeID g'.sequence := by
  intro g net rand clock i fuel id g' j h
  obtain ⟨g1, -, -, -, hid⟩ := nextID_ok_inv h
  exact hid

/-- Witness for C7: one successful call of a generator with node id 7. -/
theorem nextID_id_composition_witness :
    (12611584 : Int) =
      composeID (⟨7, 3, 0⟩ : Generator).lastTimestamp
        (⟨7, 3, 0⟩ : Generator).nodeID (⟨7, 3, 0⟩ : Generator).sequence :=
  nextID_id_composition ⟨7, -1, 0⟩ NetResult.fail 0 (fun _ => (3 : Int)) 0 0
    12611584 ⟨7, 3, 0⟩ 1 (by decide)

/-- C8: for any timestamp in `[0, 2^41)`, node id in `[0, 1023]` and
sequence in `[0, 4095]`, the inverse bit shifts recover exactly the three
fields from the composed id and the id is non-negative; applied to an id
produced by `NextID`, they reproduce the post-state fields `lastTimestamp`,
`nodeID` and `sequence`. -/
theorem id_field_roundtrip :
    (∀ (t : Int) (n s : Nat), 0 ≤ t → t < 2 ^ epochBits → n ≤ maxNodeID →
      s ≤ maxSequence →
      timestampField (composeID t n s) = t ∧
      nodeIDField (composeID t n s) = n ∧
      sequenceField (composeID t n s) = s ∧
      0 ≤ composeID t n s) ∧
    (∀ (g : Generator) (net : NetResult) (rand : Nat) (clock : Nat → Int)
      (i fuel : Nat) (id : Int) (g' : Generator) (j : Nat),
      NextID g net rand clock i fuel = some ((id, none), g', j) →
      0 ≤ g'.lastTimestamp → g'.lastTimestamp < 2 ^ epochBits →
      g'.nodeID ≤ maxNodeID →
      timestampField id = g'.lastTimestamp ∧ nodeIDField id = g'.nodeID ∧
      sequenceField id = g'.sequence ∧ 0 ≤ id) := by
  have main : ∀ (t : Int) (n s : Nat), 0 ≤ t → t < 2 ^ 41 → n < 2 ^ 10 →
      s < 2 ^ 12 →
      timestampField (composeID t n s) = t ∧ nodeIDField (composeID t n s) = n ∧
      sequenceField (composeID t n s) = s ∧ 0 ≤ composeID t n s :=
    fun t n s h0 h1 hn hs =>
      ⟨timestampField_composeID t n s h0 h1 hn hs,
        nodeIDField_composeID t n s hn hs,
        sequenceField_composeID t n s hs,
        composeID_nonneg t n s h0 h1 hn hs⟩
  constructor
  · intro t n s h0 h1 hn hs
    exact main t n s h0 h1 (by rw [maxNodeID_eq] at hn; omega)
      (by rw [maxSequence_eq] at hs; omega)
  · intro g net rand clock i fuel id g' j h h0 h1 hn
    obtain ⟨g1, -, -, hseq, hid⟩ := nextID_ok_inv h
    rw [hid]
    exact main g'.lastTimestamp g'.nodeID g'.sequence h0 h1
      (by rw [maxNodeID_eq] at hn; omega) (by rw [maxSequence_eq] at hseq; omega)

/-- Witness for C8: the pure round trip at `(5, 3, 7)` and one produced id. -/
theorem id_field_roundtrip_witness :
    (timestampField (composeID 5 3 7) = 5 ∧ nodeIDField (composeID 5 3 7) = 3 ∧
      sequenceField (composeID 5 3 7) = 7 ∧ 0 ≤ composeID 5 3 7) ∧
    (timestampField 8425472 = (⟨9, 2, 0⟩ : Generator).lastTimestamp ∧
      nodeIDField 8425472 = (⟨9, 2, 0⟩ : Generator).nodeID ∧
      sequenceField 8425472 = (⟨9, 2, 0⟩ : Generator).sequence ∧
      0 ≤ (8425472 : Int)) :=
  ⟨id_field_roundtrip.1 5 3 7 (by decide) (by decide) (by decide) (by decide),
    id_field_roundtrip.2 ⟨9, -1, 0⟩ NetResult.fail 0 (fun _ => (2 : Int)) 0 0
      8425472 ⟨9, 2, 0⟩ 1 (by decide) (by decide) (by decide) (by decide)⟩

/-- C3 (amended): for a generator whose stored node id is non-zero — as
produced by `NewWithNodeID n` for `n` in `[1, 1023]` — `NextID` is
independent of the node-id provider oracles (the provider is bypassed),
the post-state keeps the configured node id, and the node-id field of every
returned id equals it. -/
theorem nextID_nonzero_nodeID_bypasses :
    ∀ (g : Generator) (net net' : NetResult) (rand rand' : Nat)
      (clock : Nat → Int) (i fuel : Nat),
      g.nodeID ≠ 0 →
      NextID g net rand clock i fuel = NextID g net' rand' clock i fuel ∧
      (∀ (id : Int) (g' : Generator) (j : Nat),
        NextID g net rand clock i fuel = some ((id, none), g', j) →
        g'.nodeID = g.nodeID ∧
        (g.nodeID ≤ maxNodeID → nodeIDField id = g.nodeID)) := by
  intro g net net' rand rand' clock i fuel h
  constructor
  · unfold NextID
    rw [resolveNodeID_of_ne net rand h, resolveNodeID_of_ne net' rand' h]
  · intro id g' j hN
    obtain ⟨g1, hres, hnode, hseq, hid⟩ := nextID_ok_inv hN
    rw [resolveNodeID_of_ne net rand h] at hres
    injection hres with hg
    subst hg
    refine ⟨hnode, fun hb => ?_⟩
    rw [hid, hnode]
    exact nodeIDField_composeID _ _ _ (by rw [maxNodeID_eq] at hb; omega)
      (by rw [maxSequence_eq] at hseq; omega)

/-- Witness for C3 (amended): node id 1023 with two different provider
oracles. -/
theorem nextID_nonzero_nodeID_bypasses_witness :
    NextID ⟨1023, -1, 0⟩ NetResult.fail 0 (fun _ => (1 : Int)) 0 0 =
      NextID ⟨1023, -1, 0⟩ (NetResult.addrs []) 99 (fun _ => (1 : Int)) 0 0 ∧
    ((⟨1023, 1, 0⟩ : Generator).nodeID = (⟨1023, -1, 0⟩ : Generator).nodeID ∧
      ((⟨1023, -1, 0⟩ : Generator).nodeID ≤ maxNodeID →
        nodeIDField 8384512 = (⟨1023, -1, 0⟩ : Generator).nodeID)) := by
  have H := nextID_nonzero_nodeID_bypasses ⟨1023, -1, 0⟩ NetResult.fail
    (NetResult.addrs []) 0 99 (fun _ => (1 : Int)) 0 0 (by decide)
  exact ⟨H.1, H.2 8384512 ⟨1023, 1, 0⟩ 1 (by decide)⟩

/-- C6: when the sampled timestamp equals `lastTimestamp` and the sequence
increment wraps to 0, `NextID` spins on the clock until a sample differs
from `lastTimestamp`; the call returns an id carrying sequence field 0 and
that new timestamp, which under a non-decreasing clock is strictly greater
than the exhausted millisecond, and the post-state records it. -/
theorem nextID_sequence_wraparound :
    ∀ (g g1 : Generator) (net : NetResult) (rand : Nat) (clock : Nat → Int)
      (i fuel : Nat) (r : (Int × Option GenError) × Generator × Nat),
      resolveNodeID g net rand = Except.ok g1 →
      clock i = g1.lastTimestamp →
      (g1.sequence + 1) &&& maxSequence = 0 →
      (∀ n, clock n ≤ clock (n + 1)) →
      NextID g net rand clock i fuel = some r →
      ∃ ts j,
        blockWaitToNextMillisecond g1.lastTimestamp clock fuel (i + 1) =
          some (ts, j) ∧
        r = ((composeID ts g1.nodeID 0, none),
          { g1 with lastTimestamp := ts, sequence := 0 }, j) ∧
        ts ≠ g1.lastTimestamp ∧ g1.lastTimestamp < ts ∧
        sequenceField (composeID ts g1.nodeID 0) = 0 ∧
        (0 ≤ ts → ts < 2 ^ epochBits → g1.nodeID ≤ maxNodeID →
          timestampField (composeID ts g1.nodeID 0) = ts) := by
  intro g g1 net rand clock i fuel r hres hclock hseq hmono hN
  unfold NextID at hN
  rw [hres] at hN
  dsimp only at hN
  rw [if_neg (by rw [hclock]; exact lt_irrefl _), if_pos hclock, if_pos hseq] at hN
  cases hbw : blockWaitToNextMillisecond g1.lastTimestamp clock fuel (i + 1) with
  | none => rw [hbw] at hN; cases hN
  | some p =>
    obtain ⟨ts, j⟩ := p
    rw [hbw] at hN
    obtain ⟨k, hk1, hk2, hk3, hk4⟩ := blockWait_spec fuel (i + 1) hbw
    have hmono' : Monotone clock := monotone_nat_of_le_succ hmono
    have hgt : g1.lastTimestamp < ts := by
      have hle : clock i ≤ clock k := hmono' (by omega)
      rw [hclock, hk3] at hle
      exact lt_of_le_of_ne hle (Ne.symm hk4)
    injection hN with hN'
    refine ⟨ts, j, rfl, ?_, hk4, hgt,
      sequenceField_composeID ts g1.nodeID 0 (by norm_num),
      fun h0 h1 hb => timestampField_composeID ts g1.nodeID 0 h0 h1
        (by rw [maxNodeID_eq] at hb; omega) (by norm_num)⟩
    rw [← hN', hseq]

/-- Witness for C6: a generator with `sequence = 4095` at millisecond 10
and a clock that stays at 10 for one extra sample, then moves to 11. -/
theorem nextID_sequence_wraparound_witness :
    ∃ ts j,
      blockWaitToNextMillisecond (⟨5, 10, 4095⟩ : Generator).lastTimestamp
        (fun n => if n ≤ 1 then (10 : Int) else 11) 5 (0 + 1) = some (ts, j) ∧
      ((composeID 11 5 0, (none : Option GenError)), (⟨5, 11, 0⟩ : Generator), 3) =
        ((composeID ts (⟨5, 10, 4095⟩ : Generator).nodeID 0, (none : Option GenError)),
          { (⟨5, 10, 4095⟩ : Generator) with lastTimestamp := ts, sequence := 0 },
          j) ∧
      ts ≠ (⟨5, 10, 4095⟩ : Generator).lastTimestamp ∧
      (⟨5, 10, 4095⟩ : Generator).lastTimestamp < ts ∧
      sequenceField (composeID ts (⟨5, 10, 4095⟩ : Generator).nodeID 0) = 0 ∧
      (0 ≤ ts → ts < 2 ^ epochBits →
        (⟨5, 10, 4095⟩ : Generator).nodeID ≤ maxNodeID →
        timestampField (composeID ts (⟨5, 10, 4095⟩ : Generator).nodeID 0) = ts) :=
  nextID_sequence_wraparound ⟨5, 10, 4095⟩ ⟨5, 10, 4095⟩ NetResult.fail 0
    (fun n => if n ≤ 1 then (10 : Int) else 11) 0 5
    ((composeID 11 5 0, none), ⟨5, 11, 0⟩, 3)
    (by decide) (by decide) (by decide)
    (by
      intro n
      by_cases h : n ≤ 1 <;> by_cases h2 : n + 1 ≤ 1 <;>
        simp only [h, h2, if_true, if_false, ite_true, ite_false] <;> omega)
    (by decide)

end uid64
